/-
Verification of the jfrog-cli GitHub-summary report aggregation core.

Shallow embedding of:
  - utils/cliutils/githubSummary.go  (ResultStore: AppendResult,
    loadAndMarshalResultsFile, generateMarkdown, the uploaded-files tree)
  - the summary aggregator (GenerateSummaryMarkdown, combineMarkdownFiles,
    saveMarkdownToFileSystem, getSectionMarkdownContent,
    generateUploadMarkdown, shouldGenerateUploadSummary).

File contents and byte-level identity are modelled by an inductive `Bytes`
type whose constructors stand for distinguishable byte strings: the output
of json.MarshalIndent on a ResultsWrapper, the output of compact
json.Marshal, the empty byte string, and non-empty byte strings that are
not valid JSON for the schema.  Two values built from different
constructors, or from the same constructor at different wrappers, denote
different byte strings, which is faithful because the Go marshalers are
injective on this flat struct and indented and compact outputs differ.
-/
import Mathlib

namespace GithubSummary

/-- One transferred-artifact record, as persisted in the results JSON
(struct `Result` in githubSummary.go). -/
structure Result where
  sourcePath : String
  targetPath : String
  rtUrl : String
deriving DecidableEq, Repr

/-- The persisted unit: a wrapper around an ordered sequence of results
(struct `ResultsWrapper` in githubSummary.go). -/
structure ResultsWrapper where
  results : List Result
deriving DecidableEq, Repr

/-- Errors observable from the embedded operations.  `notExist` is the
os.ReadFile error satisfying os.IsNotExist; `ioError` is any other
read/stat failure; `corruptData` is a json.Unmarshal failure; `errInvalid`
is the error returned by calling Close on a nil *os.File; `wrap` is
fmt.Errorf wrapping; `mk` is any other concrete error. -/
inductive Err where
  | notExist
  | ioError
  | corruptData
  | errInvalid
  | wrap (msg : String) (e : Err)
  | mk (msg : String)
deriving DecidableEq, Repr

/-- Byte strings that can appear in a results file, modelled by provenance:
`marshalIndent w` is the output of json.MarshalIndent(w, "", "  ");
`marshalCompact w` is the output of json.Marshal(w); `empty` is the empty
byte string; `invalid s` is a non-empty byte string that json.Unmarshal
rejects for the ResultsWrapper schema. -/
inductive Bytes where
  | empty
  | marshalIndent (w : ResultsWrapper)
  | marshalCompact (w : ResultsWrapper)
  | invalid (s : String)
deriving DecidableEq, Repr

/-- Result of json.Unmarshal of the given bytes into a ResultsWrapper:
`none` means Unmarshal returns an error (empty input is
"unexpected end of JSON input"). -/
def unmarshalWrapper : Bytes → Option ResultsWrapper
  | Bytes.empty => none
  | Bytes.marshalIndent w => some w
  | Bytes.marshalCompact w => some w
  | Bytes.invalid _ => none

/-- State of the on-disk store file as seen by one os.ReadFile call:
missing (read fails with a not-exist error), unreadable (read fails with
any other error), or readable with the given bytes. -/
inductive FileState where
  | missing
  | unreadable
  | bytes (b : Bytes)
deriving DecidableEq, Repr

/-- Embedding of GitHubActionSummary.loadAndMarshalResultsFile.
Returns (targetWrapper, targetBytes, err) exactly as the Go function does
with its named return values: on a read error that is not not-exist it
returns (zero wrapper, nil, err); when the read produced no bytes it
returns through the naked `return`, so for a missing file the named `err`
still holds the not-exist error from os.ReadFile; on non-empty bytes it
unmarshals, propagating the unmarshal error. -/
def loadAndMarshalResultsFile : FileState → ResultsWrapper × Option Bytes × Option Err
  | FileState.missing => (⟨[]⟩, none, some Err.notExist)
  | FileState.unreadable => (⟨[]⟩, none, some Err.ioError)
  | FileState.bytes Bytes.empty => (⟨[]⟩, some Bytes.empty, none)
  | FileState.bytes b =>
    match unmarshalWrapper b with
    | some w => (w, some b, none)
    | none => (⟨[]⟩, some b, some Err.corruptData)

/-- State of one fragment file named by result.Reader().GetFilesPaths():
either os.ReadFile fails on it, or it holds the given bytes. -/
inductive FragFile where
  | unreadable
  | bytes (b : Bytes)
deriving DecidableEq, Repr

/-- Reading and unmarshalling one fragment file, as in the loop body of
AppendResult: a read failure or an unmarshal failure aborts with that
error, otherwise the fragment contributes its results. -/
def readFragment : FragFile → Except Err (List Result)
  | FragFile.unreadable => Except.error Err.ioError
  | FragFile.bytes b =>
    match unmarshalWrapper b with
    | some w => Except.ok w.results
    | none => Except.error Err.corruptData

/-- The fragment-reading loop of AppendResult: fragments are read in
order, the first failure aborts the whole append, and the contents are
concatenated in file order. -/
def readFragments : List FragFile → Except Err (List Result)
  | [] => Except.ok []
  | f :: fs =>
    match readFragment f with
    | Except.error e => Except.error e
    | Except.ok rs =>
      match readFragments fs with
      | Except.error e => Except.error e
      | Except.ok rest => Except.ok (rs ++ rest)

/-- Embedding of GitHubActionSummary.AppendResult.  `frags` is the list of
fragment files behind result.Reader() (empty when the reader is nil).
Returns the new store-file state and the returned error.  Faithful to the
source: the error returned by loadAndMarshalResultsFile is bound but never
checked, the loaded results are extended with the fragment contents, and
the store file is overwritten with the MarshalIndent serialization. -/
def appendResult (frags : List FragFile) (store : FileState) : FileState × Option Err :=
  match readFragments frags with
  | Except.error e => (store, some e)
  | Except.ok readContent =>
    let loaded := loadAndMarshalResultsFile store
    let targetWrapper := loaded.1
    (FileState.bytes (Bytes.marshalIndent ⟨targetWrapper.results ++ readContent⟩), none)

/-- A sequence of AppendResult calls, each appending one batch of fragment
files, threading the store-file state. -/
def appendAll : List (List FragFile) → FileState → FileState
  | [], store => store
  | b :: bs, store => appendAll bs (appendResult b store).1

/-- Outcomes of the file-handle operations performed by one markdown write
cycle: the error of os.Create / os.OpenFile, of each WriteString call in
source order, and of Close on a successfully opened handle. -/
structure FileIOEnv where
  openErr : Option Err
  writeErr1 : Option Err
  writeErr2 : Option Err
  writeErr3 : Option Err
  closeErr : Option Err
deriving DecidableEq, Repr

/-- Result of the deferred `file.Close()` call: on a successfully opened
handle it is the handle's Close outcome; when the open failed, `file` is
nil and Close on a nil *os.File returns os.ErrInvalid. -/
def fileCloseResult (env : FileIOEnv) : Option Err :=
  if env.openErr.isNone then env.closeErr else some Err.errInvalid

/-- Semantics of `defer func() { err = file.Close() }()` with a named
return value `err`: whatever value the body decided to return (`bodyErr`),
the deferred closure runs afterwards on every return path and overwrites
the named result with the Close outcome. -/
def deferredClose (env : FileIOEnv) (bodyErr : Option Err) : Option Err :=
  fileCloseResult env

/-- Embedding of GitHubActionSummary.generateMarkdown: open the summary
file, perform three WriteString calls whose errors successively overwrite
the named `err` without being checked, and return through the deferred
Close assignment. -/
def generateMarkdown (env : FileIOEnv) : Option Err :=
  let bodyErr : Option Err :=
    match env.openErr with
    | some e => some (Err.wrap "failed to open file" e)
    | none =>
      let errAfterWrite1 := env.writeErr1
      let errAfterWrite2 := env.writeErr2
      env.writeErr3
  deferredClose env bodyErr

/-- Embedding of saveMarkdownToFileSystem: an empty document returns nil
before any file is touched; otherwise the target file is created and the
markdown written, and the function returns through the deferred Close
assignment.  The Bool records whether os.Create was reached and
succeeded, i.e. whether a file now exists at the target path. -/
def saveMarkdownToFileSystem (finalMarkdown : String) (env : FileIOEnv) : Bool × Option Err :=
  if finalMarkdown = "" then (false, none)
  else
    let bodyErr : Option Err :=
      match env.openErr with
      | some e => some (Err.wrap "error creating markdown file" e)
      | none => Option.map (Err.wrap "error writing to markdown file") env.writeErr1
    (env.openErr.isNone, deferredClose env bodyErr)

/-- The Go type MarkdownSection is a string type. -/
abbrev MarkdownSection := String

/-- The security section identifier. -/
def Security : MarkdownSection := "security"

/-- The build-info section identifier. -/
def BuildInfo : MarkdownSection := "build-info"

/-- The upload section identifier. -/
def Upload : MarkdownSection := "upload"

/-- The fixed section order used both for generation and combination. -/
def markdownSections : List MarkdownSection := [Security, BuildInfo, Upload]

/-- State of one section's markdown.md file when the combiner reads it:
absent (os.Stat reports not-exist), present but unreadable, or present
with the given contents. -/
inductive SectionFile where
  | absent
  | unreadable
  | content (s : String)
deriving DecidableEq, Repr

/-- Embedding of getSectionMarkdownContent: an absent file contributes the
empty string without error, a read failure is an error, and otherwise the
file contents are returned (a zero-length file contributes the empty
string, which coincides with returning its contents). -/
def getSectionMarkdownContent (sec : MarkdownSection) : SectionFile → Except Err String
  | SectionFile.absent => Except.ok ""
  | SectionFile.unreadable =>
    Except.error (Err.wrap ("error reading markdown file for section " ++ sec) Err.ioError)
  | SectionFile.content s => Except.ok s

/-- State of the build-info section's output subdirectory as observed by
shouldGenerateUploadSummary: missing, unreadable by os.ReadDir, or
existing with the given number of directory entries. -/
inductive BuildInfoDir where
  | missing
  | unreadable
  | entries (n : Nat)
deriving DecidableEq, Repr

/-- Embedding of shouldGenerateUploadSummary: true when the build-info
subdirectory does not exist; an os.ReadDir failure yields (false, error);
otherwise true exactly when the directory is empty. -/
def shouldGenerateUploadSummary : BuildInfoDir → Bool × Option Err
  | BuildInfoDir.missing => (true, none)
  | BuildInfoDir.unreadable => (false, some (Err.wrap "error reading directory" Err.ioError))
  | BuildInfoDir.entries n => (n == 0, none)

/-- Outcomes of the upload section's external collaborators:
commandsummary.NewUploadSummary and uploadSummary.GenerateMarkdown. -/
structure UploadEnv where
  newSummaryErr : Option Err
  genMarkdownErr : Option Err
deriving DecidableEq, Repr

/-- Embedding of generateUploadMarkdown.  Returns (rendered, err) where
`rendered` records whether the upload renderer was actually invoked: when
shouldGenerateUploadSummary errors or answers false the function returns
its error without generating anything; otherwise the upload summary is
built and rendered. -/
def generateUploadMarkdown (d : BuildInfoDir) (u : UploadEnv) : Bool × Option Err :=
  let sg := shouldGenerateUploadSummary d
  if (sg.2).isSome || !sg.1 then (false, sg.2)
  else
    match u.newSummaryErr with
    | some e => (false, some (Err.wrap "error generating upload markdown" e))
    | none => (true, u.genMarkdownErr)

/-- Environment of one finalize run, after configuration and remote
metadata succeeded: the outcomes of the security and build-info external
collaborators, the build-info subdirectory state and upload collaborators
consulted by the upload section, the per-section markdown files visible to
the combiner, and the file-handle outcomes of the final write. -/
structure AggregatorEnv where
  securityGenErr : Option Err
  buildInfoGenErr : Option Err
  buildInfoDir : BuildInfoDir
  uploadEnv : UploadEnv
  files : MarkdownSection → SectionFile
  saveEnv : FileIOEnv

/-- Embedding of invokeSectionMarkdownGeneration: dispatch on the section
string; the security and build-info generators are external collaborators,
the upload generator is generateUploadMarkdown; an unknown section is an
error. -/
def invokeSectionMarkdownGeneration (sec : MarkdownSection) (env : AggregatorEnv) : Option Err :=
  if sec = Security then env.securityGenErr
  else if sec = BuildInfo then env.buildInfoGenErr
  else if sec = Upload then (generateUploadMarkdown env.buildInfoDir env.uploadEnv).2
  else some (Err.mk ("unknown section: " ++ sec))

/-- The section-generation loop of GenerateSummaryMarkdown: every section
in the fixed list is invoked in order; a failing section is recorded as a
warning and the loop continues.  Returns (sections invoked, sections
warned about). -/
def invokeAllSections (sections : List MarkdownSection) (env : AggregatorEnv) :
    List MarkdownSection × List MarkdownSection :=
  match sections with
  | [] => ([], [])
  | s :: rest =>
    let tail := invokeAllSections rest env
    (s :: tail.1,
      if (invokeSectionMarkdownGeneration s env).isSome then s :: tail.2 else tail.2)

/-- The combining loop of combineMarkdownFiles over a strings.Builder
accumulator: each section's content is read and appended in order, and the
first read error aborts the combination with that error. -/
def combineGo (files : MarkdownSection → SectionFile) :
    List MarkdownSection → String → Except Err String
  | [], acc => Except.ok acc
  | s :: rest, acc =>
    match getSectionMarkdownContent s (files s) with
    | Except.error e => Except.error e
    | Except.ok c => combineGo files rest (acc ++ c)

/-- Embedding of combineMarkdownFiles: fold the section contents over the
fixed section order starting from the empty builder. -/
def combineMarkdownFiles (files : MarkdownSection → SectionFile) : Except Err String :=
  combineGo files markdownSections ""

/-- What a section file contributes to the combined document when it is
readable: its contents, or the empty string when absent. -/
def sectionContribution : SectionFile → String
  | SectionFile.content s => s
  | _ => ""

/-- Observable outcome of the body of GenerateSummaryMarkdown after
configuration and remote metadata succeeded. -/
structure SummaryOutcome where
  invoked : List MarkdownSection
  warned : List MarkdownSection
  combined : Except Err String
  reportCreated : Bool
  err : Option Err
deriving Repr

/-- The body of GenerateSummaryMarkdown: invoke every section renderer in
order (warning on failure), combine the section files, and when the
combination succeeds hand the document to saveMarkdownToFileSystem. -/
def generateSummaryMarkdownBody (env : AggregatorEnv) : SummaryOutcome :=
  let inv := invokeAllSections markdownSections env
  match combineMarkdownFiles env.files with
  | Except.error e =>
    { invoked := inv.1, warned := inv.2, combined := Except.error e,
      reportCreated := false, err := some (Err.wrap "error combining markdown files" e) }
  | Except.ok md =>
    let saved := saveMarkdownToFileSystem md env.saveEnv
    { invoked := inv.1, warned := inv.2, combined := Except.ok md,
      reportCreated := saved.1, err := saved.2 }

/-- Result of a full GenerateSummaryMarkdown call: either an abort before
any section ran, or the outcome of the body. -/
inductive SummaryResult where
  | configError (e : Err)
  | outcome (o : SummaryOutcome)

/-- Embedding of GenerateSummaryMarkdown: the output-directory check, the
server URL and version retrieval, and the markdown-values initialization
each abort the whole call on failure, before any section renderer runs;
otherwise the body executes. -/
def generateSummaryMarkdownFull (shouldGen : Bool) (serverErr initErr : Option Err)
    (env : AggregatorEnv) : SummaryResult :=
  if !shouldGen then
    SummaryResult.configError (Err.mk "unable to generate the command summary because the output directory is not specified")
  else
    match serverErr with
    | some e => SummaryResult.configError (Err.wrap "failed to get server URL or major version" e)
    | none =>
      match initErr with
      | some e => SummaryResult.configError (Err.wrap "failed to initialize command summary values" e)
      | none => SummaryResult.outcome (generateSummaryMarkdownBody env)

/-- Embedding of ShouldGenerateSummary: the summary runs only when the
output-directory environment variable is non-empty. -/
def shouldGenerateSummaryFlag (outputDirEnvValue : String) : Bool :=
  outputDirEnvValue != ""

/-- Modelled from the spec: the PathTree node of §3 — one path segment
owning a mapping from child segment name to child node, children kept in
insertion order.  The FileTree implementation itself
(artifactoryUtils.FileTree, used by generateUploadedFilesTree) lives in
jfrog-cli-core and is not part of this repository's sources. -/
inductive PathNode where
  | mk (name : String) (children : List PathNode)

/-- Modelled from the spec: the fresh chain of nodes created when a suffix
of path segments reaches a point of the tree where no node exists yet. -/
def chainNodes : List String → List PathNode
  | [] => []
  | s :: rest => [PathNode.mk s (chainNodes rest)]

/-- Modelled from the spec: `addPath` walks/creates nodes segment by
segment — an existing segment node is reused (never overwritten) and the
walk continues among its children; a missing segment starts a fresh chain;
new siblings are appended after existing ones so children stay in
insertion order. -/
def insertSegs (segs : List String) (forest : List PathNode) : List PathNode :=
  match segs, forest with
  | [], ns => ns
  | s :: rest, [] => [PathNode.mk s (chainNodes rest)]
  | s :: rest, PathNode.mk name children :: ns =>
    if name = s then PathNode.mk name (insertSegs rest children) :: ns
    else PathNode.mk name children :: insertSegs (s :: rest) ns
termination_by (segs, forest)

/-- Modelled from the spec: `addPath` splits the path into ordered
segments by its separator and inserts them starting at the root forest. -/
def addPath (p : String) (forest : List PathNode) : List PathNode :=
  insertSegs (p.splitOn "/") forest

/-- Indentation prefix for one tree depth. -/
def indentStr (d : Nat) : String :=
  String.join (List.replicate d "  ")

/-- Modelled from the spec: `render` produces an indentation-based text,
one line per node, depth-first, children visited in insertion order; the
empty tree renders as the empty string. -/
def renderForest (d : Nat) (forest : List PathNode) : String :=
  match forest with
  | [] => ""
  | PathNode.mk name children :: rest =>
    indentStr d ++ name ++ "\n" ++ renderForest (d + 1) children ++ renderForest d rest

/-- Embedding of GitHubActionSummary.generateUploadedFilesTree: load the
results file (propagating its error), then add every result's target path
to a fresh tree in sequence order. -/
def generateUploadedFilesTree (store : FileState) : Except Err (List PathNode) :=
  let loaded := loadAndMarshalResultsFile store
  match loaded.2.2 with
  | some e => Except.error e
  | none => Except.ok (loaded.1.results.foldl (fun t r => addPath r.targetPath t) [])

/-! Helper lemmas shared by the claim theorems. -/

/-- Loading a store file holding the indented serialization of a wrapper
returns that wrapper, its bytes, and no error. -/
theorem load_marshalIndent (w : ResultsWrapper) :
    loadAndMarshalResultsFile (FileState.bytes (Bytes.marshalIndent w))
      = (w, some (Bytes.marshalIndent w), none) := rfl

/-- One successful append on a canonically serialized store extends the
serialized wrapper with the fragment contents. -/
theorem appendResult_ok (frags : List FragFile) (rs : List Result) (w : ResultsWrapper)
    (h : readFragments frags = Except.ok rs) :
    appendResult frags (FileState.bytes (Bytes.marshalIndent w))
      = (FileState.bytes (Bytes.marshalIndent ⟨w.results ++ rs⟩), none) := by
  simp [appendResult, h, load_marshalIndent]

/-- A sample result record used by concrete witnesses. -/
def sampleResult (n : Nat) : Result :=
  { sourcePath := "source" ++ toString n, targetPath := "target" ++ toString n,
    rtUrl := "url" ++ toString n }

/-- C1: starting from a store file persisted as the indented serialization
of some wrapper, any sequence of append calls whose fragment reads all
succeed leaves the store so that load() returns exactly the previously
persisted results followed by every appended batch, in call order and in
batch-internal order, with no error. -/
theorem append_load_concatenation (w : ResultsWrapper)
    (batches : List (List FragFile)) (rss : List (List Result))
    (h : List.Forall₂ (fun b rs => readFragments b = Except.ok rs) batches rss) :
    loadAndMarshalResultsFile (appendAll batches (FileState.bytes (Bytes.marshalIndent w)))
      = (⟨w.results ++ rss.flatten⟩, some (Bytes.marshalIndent ⟨w.results ++ rss.flatten⟩), none) := by
  induction h generalizing w with
  | nil => simp [appendAll, load_marshalIndent]
  | @cons b rs bs rest hbr _ ih =>
    have hstep := appendResult_ok b rs w hbr
    simp [appendAll, hstep, ih, List.append_assoc]

/-- C1 witness: two appends over a store persisted with one result yield a
load of all three results in order. -/
theorem append_load_concatenation_witness :
    loadAndMarshalResultsFile (appendAll
        [[FragFile.bytes (Bytes.marshalIndent ⟨[sampleResult 1]⟩)],
         [FragFile.bytes (Bytes.marshalCompact ⟨[sampleResult 2]⟩)]]
        (FileState.bytes (Bytes.marshalIndent ⟨[sampleResult 0]⟩)))
      = (⟨[sampleResult 0, sampleResult 1, sampleResult 2]⟩,
         some (Bytes.marshalIndent ⟨[sampleResult 0, sampleResult 1, sampleResult 2]⟩), none) := by
  have h := append_load_concatenation ⟨[sampleResult 0]⟩
    [[FragFile.bytes (Bytes.marshalIndent ⟨[sampleResult 1]⟩)],
     [FragFile.bytes (Bytes.marshalCompact ⟨[sampleResult 2]⟩)]]
    [[sampleResult 1], [sampleResult 2]]
    (List.Forall₂.cons rfl (List.Forall₂.cons rfl List.Forall₂.nil))
  simpa using h

/-- C4 counterexample: appending the empty batch to a missing store file
is not a no-op — it creates the file with the indented serialization of
the empty wrapper. -/
theorem append_empty_rewrites_missing_store :
    appendResult [] FileState.missing
      = (FileState.bytes (Bytes.marshalIndent ⟨[]⟩), none)
    ∧ FileState.bytes (Bytes.marshalIndent ⟨[]⟩) ≠ FileState.missing := by
  exact ⟨rfl, by decide⟩

/-- C4 amended: append([]) leaves the store file byte-identical exactly on
files that already hold the store's own indented serialization of a
wrapper; a missing, empty, compact, or corrupt file is rewritten with the
indented serialization of whatever wrapper was loaded. -/
theorem append_empty_noop_on_canonical_store (w : ResultsWrapper) :
    appendResult [] (FileState.bytes (Bytes.marshalIndent w))
      = (FileState.bytes (Bytes.marshalIndent w), none) := by
  simp [appendResult, readFragments, load_marshalIndent]

/-- C5 counterexample: loading a missing store file does not return
without error — the named error still holds the os.ReadFile not-exist
failure at the naked return. -/
theorem load_missing_returns_error :
    (loadAndMarshalResultsFile FileState.missing).2.2 = some Err.notExist
    ∧ (loadAndMarshalResultsFile FileState.missing).2.2 ≠ none := by
  exact ⟨rfl, by decide⟩

/-- C5 amended: load() returns the empty wrapper without error when the
store file exists and is empty; for a missing file it returns the empty
wrapper together with the not-found read error; and it fails with the
corrupt-data error exactly when the file's bytes read successfully,
are non-empty, and are not valid data for the wrapper schema. -/
theorem load_error_classification :
    (∀ s : FileState,
      ((loadAndMarshalResultsFile s).2.2 = some Err.corruptData ↔
        ∃ b, s = FileState.bytes b ∧ b ≠ Bytes.empty ∧ unmarshalWrapper b = none))
    ∧ loadAndMarshalResultsFile (FileState.bytes Bytes.empty) = (⟨[]⟩, some Bytes.empty, none)
    ∧ loadAndMarshalResultsFile FileState.missing = (⟨[]⟩, none, some Err.notExist) := by
  refine ⟨fun s => ?_, rfl, rfl⟩
  cases s with
  | missing => simp [loadAndMarshalResultsFile]
  | unreadable => simp [loadAndMarshalResultsFile]
  | bytes b => cases b <;> simp [loadAndMarshalResultsFile, unmarshalWrapper]

/-- C6: when reading or parsing any fragment file fails, the whole append
returns that error and leaves the store file unchanged — no partial merge
is written. -/
theorem append_aborts_on_fragment_error (frags : List FragFile) (store : FileState) (e : Err)
    (h : readFragments frags = Except.error e) :
    appendResult frags store = (store, some e) := by
  simp [appendResult, h]

/-- C6 witness: an unreadable fragment aborts the append with the IO error
and the populated store file is untouched. -/
theorem append_aborts_on_fragment_error_witness :
    appendResult [FragFile.unreadable] (FileState.bytes (Bytes.marshalIndent ⟨[sampleResult 0]⟩))
      = (FileState.bytes (Bytes.marshalIndent ⟨[sampleResult 0]⟩), some Err.ioError) :=
  append_aborts_on_fragment_error _ _ _ rfl

/-- C8: when loading the existing store fails — an unreadable file or
non-empty invalid bytes — append ignores the load error, proceeds with the
zero wrapper the load produced, and overwrites the store with only the
newly read fragment results, returning success. -/
theorem append_ignores_load_failure (frags : List FragFile) (rs : List Result) (store : FileState)
    (hread : readFragments frags = Except.ok rs)
    (hstore : store = FileState.unreadable ∨ ∃ s, store = FileState.bytes (Bytes.invalid s)) :
    appendResult frags store = (FileState.bytes (Bytes.marshalIndent ⟨rs⟩), none) := by
  rcases hstore with h | ⟨s, h⟩ <;>
    subst h <;>
    simp [appendResult, hread, loadAndMarshalResultsFile, unmarshalWrapper]

/-- C8 witness: appending one fragment over an unreadable store silently
discards the previous contents and persists only the fragment results. -/
theorem append_ignores_load_failure_witness :
    appendResult [FragFile.bytes (Bytes.marshalIndent ⟨[sampleResult 1]⟩)] FileState.unreadable
      = (FileState.bytes (Bytes.marshalIndent ⟨[sampleResult 1]⟩), none) :=
  append_ignores_load_failure _ _ _ rfl (Or.inl rfl)

/-- A readable (or absent) section file contributes exactly its
`sectionContribution` to the combiner, without error. -/
theorem getSection_ok (sec : MarkdownSection) (f : SectionFile)
    (h : f ≠ SectionFile.unreadable) :
    getSectionMarkdownContent sec f = Except.ok (sectionContribution f) := by
  cases f with
  | absent => rfl
  | unreadable => exact absurd rfl h
  | content s => rfl

/-- The empty string is a left identity of string append. -/
theorem string_empty_append (s : String) : "" ++ s = s := by
  cases s
  rfl

/-- When every section file is readable, combineMarkdownFiles succeeds
with the three contributions concatenated in the fixed order
security, build-info, upload. -/
theorem combine_ok (files : MarkdownSection → SectionFile)
    (hread : ∀ s, files s ≠ SectionFile.unreadable) :
    combineMarkdownFiles files
      = Except.ok (sectionContribution (files Security)
          ++ sectionContribution (files BuildInfo)
          ++ sectionContribution (files Upload)) := by
  unfold combineMarkdownFiles markdownSections
  simp [combineGo, getSection_ok _ _ (hread Security), getSection_ok _ _ (hread BuildInfo),
    getSection_ok _ _ (hread Upload), string_empty_append]

/-- Regardless of per-section generation errors, the generation loop
invokes every section in the fixed order. -/
theorem invokeAll_invokes_every_section (env : AggregatorEnv) :
    (invokeAllSections markdownSections env).1 = [Security, BuildInfo, Upload] := rfl

/-- C2: when configuration and remote metadata succeed and every section
file is readable, the combined document is exactly the concatenation of
the section contents in the fixed order security, build-info, upload; a
failed generation (whose section therefore has no markdown file)
contributes the empty string, and every section renderer is still invoked
despite earlier failures. -/
theorem summary_sections_fixed_order (env : AggregatorEnv)
    (hread : ∀ s, env.files s ≠ SectionFile.unreadable)
    (hfail : ∀ s, invokeSectionMarkdownGeneration s env ≠ none →
      env.files s = SectionFile.absent) :
    ∃ o, generateSummaryMarkdownFull true none none env = SummaryResult.outcome o
      ∧ o.invoked = [Security, BuildInfo, Upload]
      ∧ o.combined = Except.ok (sectionContribution (env.files Security)
          ++ sectionContribution (env.files BuildInfo)
          ++ sectionContribution (env.files Upload))
      ∧ (∀ s, invokeSectionMarkdownGeneration s env ≠ none →
          sectionContribution (env.files s) = "") := by
  have hc := combine_ok env.files hread
  refine ⟨generateSummaryMarkdownBody env, rfl, ?_, ?_, ?_⟩
  · simp [generateSummaryMarkdownBody, hc, invokeAll_invokes_every_section]
  · simp [generateSummaryMarkdownBody, hc]
  · intro s hs
    rw [hfail s hs]
    rfl

/-- An aggregator environment in which no section produced anything and
all file operations succeed. -/
def envAllAbsent : AggregatorEnv :=
  { securityGenErr := none, buildInfoGenErr := none,
    buildInfoDir := BuildInfoDir.missing, uploadEnv := ⟨none, none⟩,
    files := fun _ => SectionFile.absent,
    saveEnv := ⟨none, none, none, none, none⟩ }

/-- C2 witness: in a run with no section data at all, the full call
produces the outcome with all sections invoked and the empty combined
document. -/
theorem summary_sections_fixed_order_witness :
    ∃ o, generateSummaryMarkdownFull true none none envAllAbsent = SummaryResult.outcome o
      ∧ o.invoked = [Security, BuildInfo, Upload]
      ∧ o.combined = Except.ok ""
      ∧ (∀ s, invokeSectionMarkdownGeneration s envAllAbsent ≠ none →
          sectionContribution (envAllAbsent.files s) = "") := by
  have h := summary_sections_fixed_order envAllAbsent
    (fun s hs => nomatch hs) (fun s _ => rfl)
  simpa [envAllAbsent, sectionContribution] using h

/-- C3: whenever the build-info output subdirectory exists and holds at
least one entry, the upload renderer is not invoked and no error is
returned, whatever the state of the upload collaborators; and the upload
renderer runs only when that subdirectory is missing or empty. -/
theorem upload_skipped_when_buildinfo_nonempty (u : UploadEnv) (d : BuildInfoDir) (n : Nat) :
    generateUploadMarkdown (BuildInfoDir.entries (n + 1)) u = (false, none)
    ∧ ((generateUploadMarkdown d u).1 = true →
        d = BuildInfoDir.missing ∨ d = BuildInfoDir.entries 0) := by
  constructor
  · rfl
  · intro h
    cases d with
    | missing => exact Or.inl rfl
    | unreadable => exact absurd h (by simp [generateUploadMarkdown, shouldGenerateUploadSummary])
    | entries m =>
      cases m with
      | zero => exact Or.inr rfl
      | succ k => exact absurd h (by simp [generateUploadMarkdown, shouldGenerateUploadSummary])

/-- C3 witness: with one entry in the build-info subdirectory the upload
section is skipped without error, and a missing subdirectory is one of the
two states in which the upload renderer runs. -/
theorem upload_skipped_when_buildinfo_nonempty_witness :
    generateUploadMarkdown (BuildInfoDir.entries 1) ⟨none, none⟩ = (false, none)
    ∧ (BuildInfoDir.missing = BuildInfoDir.missing
        ∨ BuildInfoDir.missing = BuildInfoDir.entries 0) := by
  have h := upload_skipped_when_buildinfo_nonempty ⟨none, none⟩ BuildInfoDir.missing 0
  exact ⟨h.1, h.2 rfl⟩

/-- C7: when the combined document is empty, the finalize call creates no
report file and returns success. -/
theorem empty_summary_writes_nothing (env : AggregatorEnv)
    (h : combineMarkdownFiles env.files = Except.ok "") :
    generateSummaryMarkdownFull true none none env
      = SummaryResult.outcome
        { invoked := (invokeAllSections markdownSections env).1,
          warned := (invokeAllSections markdownSections env).2,
          combined := Except.ok "", reportCreated := false, err := none } := by
  simp [generateSummaryMarkdownFull, generateSummaryMarkdownBody, h, saveMarkdownToFileSystem]

/-- C7 witness: the all-absent run creates no file and returns no
error. -/
theorem empty_summary_writes_nothing_witness :
    generateSummaryMarkdownFull true none none envAllAbsent
      = SummaryResult.outcome
        { invoked := [Security, BuildInfo, Upload], warned := [],
          combined := Except.ok "", reportCreated := false, err := none } := by
  have h := empty_summary_writes_nothing envAllAbsent rfl
  simpa using h

/-- C9: for a non-empty document, the error returned by the final-report
write and by the store's markdown generation is always the outcome of the
deferred Close call — when the open succeeded it equals the handle's Close
result whatever the write errors were, so a write failure is masked by a
successful Close and a Close failure is reported even when every write
succeeded. -/
theorem write_error_masked_by_deferred_close (env : FileIOEnv) (md : String)
    (h : md ≠ "") :
    (saveMarkdownToFileSystem md env).2 = fileCloseResult env
    ∧ generateMarkdown env = fileCloseResult env
    ∧ (env.openErr = none →
        (saveMarkdownToFileSystem md env).2 = env.closeErr
        ∧ generateMarkdown env = env.closeErr) := by
  refine ⟨?_, rfl, fun ho => ?_⟩
  · simp [saveMarkdownToFileSystem, h, deferredClose]
  · constructor
    · simp [saveMarkdownToFileSystem, h, deferredClose, fileCloseResult, ho]
    · simp [generateMarkdown, deferredClose, fileCloseResult, ho]

/-- C9 witness: with a failing WriteString and a succeeding Close, both
write paths report success. -/
theorem write_error_masked_by_deferred_close_witness :
    (saveMarkdownToFileSystem "x" ⟨none, some (Err.mk "boom"), none, none, none⟩).2 = none
    ∧ generateMarkdown ⟨none, some (Err.mk "boom"), none, none, none⟩ = none := by
  have h := write_error_masked_by_deferred_close
    ⟨none, some (Err.mk "boom"), none, none, none⟩ "x" (by decide)
  exact ⟨(h.2.2 rfl).1, (h.2.2 rfl).2⟩

/-- Re-inserting the segment suffix a fresh chain was built from changes
nothing: every segment of the chain is already present. -/
theorem insertSegs_chain (rest : List String) :
    insertSegs rest (chainNodes rest) = chainNodes rest := by
  induction rest with
  | nil => simp [insertSegs, chainNodes]
  | cons t r ih => simp [chainNodes, insertSegs, ih]

/-- Inserting the same segment list twice yields the same forest as
inserting it once. -/
theorem insertSegs_idem (segs : List String) (ns : List PathNode) :
    insertSegs segs (insertSegs segs ns) = insertSegs segs ns := by
  match segs, ns with
  | [], ns => simp [insertSegs]
  | s :: rest, [] => simp [insertSegs, insertSegs_chain]
  | s :: rest, PathNode.mk name children :: ns =>
    by_cases h : name = s
    · simp [insertSegs, h, insertSegs_idem rest children]
    · simp [insertSegs, h, insertSegs_idem (s :: rest) ns]
termination_by (segs, ns)

/-- C10: addPath is idempotent — inserting the same path twice produces
the very same tree as inserting it once, hence the same render() output —
and the empty tree renders as the empty string. -/
theorem addPath_idempotent_and_empty_render :
    (∀ (forest : List PathNode) (p : String),
      addPath p (addPath p forest) = addPath p forest
      ∧ renderForest 0 (addPath p (addPath p forest)) = renderForest 0 (addPath p forest))
    ∧ renderForest 0 [] = "" := by
  refine ⟨fun forest p => ?_, by simp [renderForest]⟩
  have h := insertSegs_idem (p.splitOn "/") forest
  exact ⟨h, congrArg (renderForest 0) h⟩

end GithubSummary
